import Mathlib

/-!
# Verification of the template engine and generator of
# `agent-skill-java-spring-framework`

Shallow embedding of `src/lib/templates.js` (the regex-driven template
engine) and `src/lib/generator.js` (the context builder and file-name
derivation), together with theorems settling the frozen claims about the
natural-language specification.

Modelling conventions:
* JavaScript context values (`ctx[key]`) become the inductive `JsVal`;
  `undefined` is `Option.none`, JS `null` is `JsVal.vNull`.  Arrays carry
  scalars, following the spec's data model ("string, boolean, or
  ordered-sequence-of-string"); the repository only ever iterates over
  string arrays (the feature list).
* Property access on a plain object traverses `Object.prototype`: an
  absent key that names a prototype member (`toString`, `constructor`, …)
  yields the inherited member (`JsVal.vProto`), which is truthy and whose
  string form follows Node/V8 (`function name() { [native code] }`,
  `[object Object]` for `__proto__`).
* A `String.replace` whose replacement is a *string* interprets the JS
  substitution patterns `$$`, `$&`, `` $` `` and `$'` (`getSubstitution`);
  this matters for the `{{item}}` replacement of `processEach`.
* A JS regex global replace is modelled as a left-to-right scan over the
  character list: at each position the scanner either matches (emitting the
  replacement and resuming after the match, exactly like `String.replace`
  with a `/g` regex, which never rescans replacements) or emits one
  character and moves on.  The scan is written with a fuel argument equal
  to the input length; every successful match consumes at least five
  characters, so that fuel is always sufficient, and the definitions stay
  kernel-computable.
-/

namespace SpringSkill

/-- Scalar JavaScript values that can appear inside a context array. -/
inductive JsScalar where
  | sStr (s : String)
  | sBool (b : Bool)
  | sNum (n : Int)
  | sNull
  deriving DecidableEq, Repr

/-- JavaScript values stored in a template context.  `vProto name` is the
member inherited from `Object.prototype` when a plain-object property
access falls through to the prototype chain: a function object for the
method members, and `Object.prototype` itself for `__proto__`. -/
inductive JsVal where
  | vStr (s : String)
  | vBool (b : Bool)
  | vNum (n : Int)
  | vNull
  | vArr (l : List JsScalar)
  | vProto (name : String)
  deriving DecidableEq, Repr

/-- A template context: the JS object passed to `renderTemplate`.
An absent key is modelled by a failing lookup (`undefined`). -/
def Ctx := List (String × JsVal)

/-- The property names that a bracket access on a plain object literal
finds on `Object.prototype` when the key is not an own property. -/
def protoKeys : List String :=
  ["constructor", "hasOwnProperty", "isPrototypeOf", "propertyIsEnumerable",
   "toLocaleString", "toString", "valueOf", "__defineGetter__", "__defineSetter__",
   "__lookupGetter__", "__lookupSetter__", "__proto__"]

/-- `String(x)` for a value inherited from `Object.prototype` (Node/V8
renders built-in functions as `function name() { [native code] }`;
`__proto__` is `Object.prototype` itself, whose string form is
`[object Object]`, and `constructor` is the `Object` function). -/
def protoString (name : String) : String :=
  if name = "__proto__" then "[object Object]"
  else if name = "constructor" then "function Object() \x7b [native code] \x7d"
  else "function " ++ name ++ "() \x7b [native code] \x7d"

/-- `ctx[key]` — `none` is JS `undefined`.  A plain-object bracket access
first finds own properties, then falls through to `Object.prototype`. -/
def lookupCtx (ctx : Ctx) (key : String) : Option JsVal :=
  match List.lookup key ctx with
  | some v => some v
  | none => if protoKeys.contains key then some (.vProto key) else none

/-- JS default string conversion for scalars (`String(x)`). -/
def scalarToString : JsScalar → String
  | .sStr s => s
  | .sBool b => cond b "true" "false"
  | .sNum n => toString n
  | .sNull => "null"

/-- JS `String(x)` for context values.  An array is joined with `","`,
with `null` elements contributing the empty string, as `Array.prototype.toString` does. -/
def jsToString : JsVal → String
  | .vStr s => s
  | .vBool b => cond b "true" "false"
  | .vNum n => toString n
  | .vNull => "null"
  | .vArr l =>
      String.intercalate "," (l.map (fun e =>
        match e with
        | .sNull => ""
        | e => scalarToString e))
  | .vProto name => protoString name

/-- JS boolean coercion of a value: `null`, `false`, `0` and `""` are
falsy; everything else (arrays, functions, objects) is truthy. -/
def truthyVal : JsVal → Bool
  | .vNull => false
  | .vBool b => b
  | .vNum n => decide (n ≠ 0)
  | .vStr s => decide (s ≠ "")
  | .vArr _ => true
  | .vProto _ => true

/-- JS boolean coercion `Boolean(ctx[key])`: `undefined` is falsy too. -/
def truthy : Option JsVal → Bool
  | none => false
  | some v => truthyVal v

/-- The interpolation value of `{{key}}`:
`val !== undefined && val !== null ? String(val) : ''` (from `interpolate`). -/
def interpVal : Option JsVal → List Char
  | none => []
  | some .vNull => []
  | some v => (jsToString v).data

/-- `\w` of the JS regexes: ASCII letters, digits and underscore. -/
def isWordChar (c : Char) : Bool :=
  c.isAlpha || c.isDigit || c = '_'

/-- Match a literal character-list `pre` at the head of the input and hand
the rest to the continuation parser; fail otherwise.  All four markers of
the engine start with a fixed literal, so every parser is `guarded`. -/
def guarded (pre : List Char) (k : List Char → Option α) : List Char → Option α :=
  fun l => if l.take pre.length = pre then k (l.drop pre.length) else none

/-- Split the input at the first occurrence of the literal `close`
(the lazy `[\s\S]*?` of the block regexes followed by the closing tag):
returns the part before the first occurrence, and the part after it. -/
def splitAtClose (close : List Char) : List Char → Option (List Char × List Char)
  | [] => none
  | c :: rest =>
      if (c :: rest).take close.length = close then
        some ([], (c :: rest).drop close.length)
      else
        match splitAtClose close rest with
        | some (body, after) => some (c :: body, after)
        | none => none

/-- Parser for one match of `/\{\{#if (!?)(\w+)\}\}([\s\S]*?)\{\{\/if\}\}/`
anchored at the head of the input.  Returns (negation flag, key, body, rest). -/
def scanIfP : List Char → Option (Bool × List Char × List Char × List Char) :=
  guarded "\x7b\x7b#if ".data (fun r =>
    let negation := if r.take 1 = ['!'] then true else false
    let r1 := if r.take 1 = ['!'] then r.drop 1 else r
    let key := r1.takeWhile isWordChar
    let r2 := r1.dropWhile isWordChar
    if key = [] then none
    else if r2.take 2 = ['}', '}'] then
      match splitAtClose "\x7b\x7b/if\x7d\x7d".data (r2.drop 2) with
      | some (body, rest) => some (negation, key, body, rest)
      | none => none
    else none)

/-- Parser for one match of `/\{\{#each (\w+)\}\}([\s\S]*?)\{\{\/each\}\}/`
anchored at the head of the input.  Returns (key, body, rest). -/
def scanEachP : List Char → Option (List Char × List Char × List Char) :=
  guarded "\x7b\x7b#each ".data (fun r =>
    let key := r.takeWhile isWordChar
    let r2 := r.dropWhile isWordChar
    if key = [] then none
    else if r2.take 2 = ['}', '}'] then
      match splitAtClose "\x7b\x7b/each\x7d\x7d".data (r2.drop 2) with
      | some (body, rest) => some (key, body, rest)
      | none => none
    else none)

/-- Parser for one match of `/\{\{(\w+)\}\}/` anchored at the head of the
input.  Returns (key, rest). -/
def scanVarP : List Char → Option (List Char × List Char) :=
  guarded "\x7b\x7b".data (fun r =>
    let key := r.takeWhile isWordChar
    let r2 := r.dropWhile isWordChar
    if key = [] then none
    else if r2.take 2 = ['}', '}'] then some (key, r2.drop 2)
    else none)

/-- Parser for one match of the literal `/\{\{item\}\}/` anchored at the
head of the input.  Returns the rest. -/
def scanItemP : List Char → Option (List Char) :=
  guarded "\x7b\x7bitem\x7d\x7d".data some

/-- One global-regex rewrite pass: at each position, either the scanner
matches, in which case the replacement is emitted and scanning resumes
after the match, or one character is copied to the output.  `fuel` is the
number of remaining steps; callers pass the input length, which is always
enough because every match consumes at least five characters. -/
def passAux (scan : List Char → Option (List Char × List Char)) :
    Nat → List Char → List Char
  | 0, l => l
  | fuel + 1, l =>
      match scan l with
      | some (rep, rest) => rep ++ passAux scan fuel rest
      | none =>
          match l with
          | [] => []
          | c :: rest => c :: passAux scan fuel rest

/-- Scanner of `processIf` with the replacement callback applied:
`const val = Boolean(ctx[key]); return (negate ? !val : val) ? body : '';`. -/
def scanIfC (ctx : Ctx) : List Char → Option (List Char × List Char) :=
  fun l =>
    (scanIfP l).map (fun q =>
      let neg := q.1
      let key := q.2.1
      let body := q.2.2.1
      let rest := q.2.2.2
      let val := truthy (lookupCtx ctx ⟨key⟩)
      ((if (if neg then !val else val) then body else []), rest))

/-- The `GetSubstitution` step of a JS `String.replace` whose replacement
is a *string*: `$$` inserts `$`, `$&` the matched text, `` $` `` the part
of the subject before the match, `$'` the part after it; any other
`$`-sequence (including `$n` for this group-less regex and a trailing `$`)
is copied literally. -/
def getSubstitution (matched before after : List Char) : List Char → List Char
  | [] => []
  | [c] => [c]
  | c :: d :: rest =>
      if c = '$' then
        if d = '$' then '$' :: getSubstitution matched before after rest
        else if d = '&' then matched ++ getSubstitution matched before after rest
        else if d = Char.ofNat 96 then before ++ getSubstitution matched before after rest
        else if d = '\'' then after ++ getSubstitution matched before after rest
        else '$' :: getSubstitution matched before after (d :: rest)
      else c :: getSubstitution matched before after (d :: rest)

/-- `body.replace(/\{\{item\}\}/g, str)` with a *string* replacement:
scans the body left to right, and at each match of `{{item}}` emits the
replacement processed by `getSubstitution`, where `done` is the part of
the original body before the match and the remainder is the part after
it.  `fuel` is passed as the body length (every match consumes eight
characters). -/
def replaceItemAux (str : List Char) : Nat → List Char → List Char → List Char
  | 0, _, rem => rem
  | fuel + 1, done, rem =>
      match scanItemP rem with
      | some rest =>
          getSubstitution "\x7b\x7bitem\x7d\x7d".data done rest str
            ++ replaceItemAux str fuel (done ++ "\x7b\x7bitem\x7d\x7d".data) rest
      | none =>
          match rem with
          | [] => []
          | c :: rest => c :: replaceItemAux str fuel (done ++ [c]) rest

/-- The replacement of one `{{#each}}` block:
`if (!Array.isArray(arr)) return ''` and otherwise one copy of the body per
element with `{{item}}` replaced via the JS string-replacement semantics of
`body.replace(/\{\{item\}\}/g, String(item))`, concatenated. -/
def eachExpand (body : List Char) : Option JsVal → List Char
  | some (.vArr items) =>
      (items.map (fun it =>
        replaceItemAux (scalarToString it).data body.length [] body)).flatten
  | _ => []

/-- Scanner of `processEach` with the replacement callback applied. -/
def scanEachC (ctx : Ctx) : List Char → Option (List Char × List Char) :=
  fun l =>
    (scanEachP l).map (fun q =>
      (eachExpand q.2.1 (lookupCtx ctx ⟨q.1⟩), q.2.2))

/-- Scanner of `interpolate` with the replacement callback applied. -/
def scanVarC (ctx : Ctx) : List Char → Option (List Char × List Char) :=
  fun l =>
    (scanVarP l).map (fun q => (interpVal (lookupCtx ctx ⟨q.1⟩), q.2))

/-- `processIf` of `templates.js`. -/
def processIf (src : String) (ctx : Ctx) : String :=
  ⟨passAux (scanIfC ctx) src.data.length src.data⟩

/-- `processEach` of `templates.js`. -/
def processEach (src : String) (ctx : Ctx) : String :=
  ⟨passAux (scanEachC ctx) src.data.length src.data⟩

/-- `interpolate` of `templates.js`. -/
def interpolate (src : String) (ctx : Ctx) : String :=
  ⟨passAux (scanVarC ctx) src.data.length src.data⟩

/-- `renderTemplate` of `templates.js`, with the template source passed
directly instead of being read from disk: the three rewrite passes applied
in their fixed order. -/
def renderTemplate (source : String) (ctx : Ctx) : String :=
  interpolate (processEach (processIf source ctx) ctx) ctx

/-!
## Generic lemmas about one rewrite pass

Every scanner of the engine has the form `fun l => (p l).map f` for a pure
parser `p` (the regex match) and a replacement function `f` (the callback).
-/

/-- `true` iff the parser matches at no suffix of the input: the pass finds
nothing to rewrite anywhere. -/
def parseFree (p : List Char → Option α) : List Char → Bool
  | [] => (p []).isNone
  | c :: rest => (p (c :: rest)).isNone && parseFree p rest

/-- `true` iff the parser matches at no position inside the region (first
list) when the region is followed by the continuation `b`. -/
def parseInert (p : List Char → Option α) (b : List Char) : List Char → Bool
  | [] => true
  | c :: rest => (p ((c :: rest) ++ b)).isNone && parseInert p b rest

/-- No character of the list is an opening brace. -/
def braceFree (l : List Char) : Bool := l.all (fun c => c ≠ '{')

/-- No character of the list is a dollar sign, so a JS string replacement
inserts it literally. -/
def dollarFree (l : List Char) : Bool := l.all (fun c => c ≠ '$')

theorem passAux_nil {scan : List Char → Option (List Char × List Char)}
    (h : scan [] = none) (fuel : Nat) : passAux scan fuel [] = [] := by
  cases fuel with
  | zero => rfl
  | succ fuel => simp [passAux, h]

theorem passAux_match {scan : List Char → Option (List Char × List Char)}
    {l rep rest : List Char} (h : scan l = some (rep, rest)) (fuel : Nat) :
    passAux scan (fuel + 1) l = rep ++ passAux scan fuel rest := by
  simp [passAux, h]

theorem passAux_skip_char {scan : List Char → Option (List Char × List Char)}
    {c : Char} {rest : List Char} (h : scan (c :: rest) = none) (fuel : Nat) :
    passAux scan (fuel + 1) (c :: rest) = c :: passAux scan fuel rest := by
  simp [passAux, h]

theorem pass_id {α : Type} {p : List Char → Option α} {f : α → List Char × List Char}
    {l : List Char} (h : parseFree p l = true) (fuel : Nat) :
    passAux (fun l => (p l).map f) fuel l = l := by
  induction l generalizing fuel with
  | nil =>
      simp only [parseFree, Option.isNone_iff_eq_none] at h
      cases fuel <;> simp [passAux, h]
  | cons c rest ih =>
      cases fuel with
      | zero => rfl
      | succ fuel =>
          simp only [parseFree, Bool.and_eq_true, Option.isNone_iff_eq_none] at h
          obtain ⟨h1, h2⟩ := h
          rw [passAux_skip_char (by simp only [Option.map_eq_none']; exact h1) fuel, ih h2]

theorem pass_skip {α : Type} {p : List Char → Option α} {f : α → List Char × List Char}
    {a b : List Char} (h : parseInert p b a = true) (fuel : Nat) :
    passAux (fun l => (p l).map f) (a.length + fuel) (a ++ b)
      = a ++ passAux (fun l => (p l).map f) fuel b := by
  induction a with
  | nil => simp
  | cons c a ih =>
      simp only [parseInert, Bool.and_eq_true, Option.isNone_iff_eq_none] at h
      obtain ⟨h1, h2⟩ := h
      have hlen : (c :: a).length + fuel = (a.length + fuel) + 1 := by
        simp [List.length_cons]; omega
      rw [hlen, List.cons_append,
        passAux_skip_char (by simp only [Option.map_eq_none']; exact h1) _, ih h2]
      rfl

/-!
### Failure lemmas for `guarded` parsers

All four parsers start with the literal `{{`, so a position whose first or
second character disagrees with the literal cannot match, and the
block parsers additionally need `#` in third position.
-/

theorem guarded_none_nil {α : Type} {k : List Char → Option α} {pre : List Char}
    (hp : pre.head? = some '{') : guarded pre k [] = none := by
  cases pre with
  | nil => simp at hp
  | cons p ps =>
      unfold guarded
      rw [if_neg]
      simp

theorem guarded_none_head {α : Type} {k : List Char → Option α} {pre : List Char}
    (hp : pre.head? = some '{') {c : Char} (hc : c ≠ '{') (r : List Char) :
    guarded pre k (c :: r) = none := by
  cases pre with
  | nil => simp at hp
  | cons p ps =>
      have hp' : p = '{' := by simpa using hp
      subst hp'
      unfold guarded
      rw [if_neg]
      intro h
      rw [List.length_cons, List.take_succ_cons] at h
      exact hc (by injection h)

theorem guarded_none_second {α : Type} {k : List Char → Option α} {pre : List Char}
    (hp : pre.take 2 = ['{', '{']) {c : Char} (hc : c ≠ '{') (r : List Char) :
    guarded pre k ('{' :: c :: r) = none := by
  match pre, hp with
  | p0 :: p1 :: ps, hp =>
      have h0 : p0 = '{' := by simpa using congrArg (fun l => l.head?) hp
      have h1 : p1 = '{' := by
        have := congrArg (fun l => l.tail.head?) hp
        simpa using this
      subst h0; subst h1
      unfold guarded
      rw [if_neg]
      intro h
      rw [List.length_cons, List.length_cons, List.take_succ_cons, List.take_succ_cons] at h
      have := congrArg (fun l => l.tail.head?) h
      simp at this
      exact hc this

theorem guarded_none_third {α : Type} {k : List Char → Option α} {pre : List Char}
    (hp : pre.take 3 = ['{', '{', '#']) {c : Char} (hc : c ≠ '#') (r : List Char) :
    guarded pre k ('{' :: '{' :: c :: r) = none := by
  match pre, hp with
  | p0 :: p1 :: p2 :: ps, hp =>
      have h0 : p0 = '{' := by simpa using congrArg (fun l => l.head?) hp
      have h1 : p1 = '{' := by simpa using congrArg (fun l => l.tail.head?) hp
      have h2 : p2 = '#' := by simpa using congrArg (fun l => l.tail.tail.head?) hp
      subst h0; subst h1; subst h2
      unfold guarded
      rw [if_neg]
      intro h
      rw [List.length_cons, List.length_cons, List.length_cons,
        List.take_succ_cons, List.take_succ_cons, List.take_succ_cons] at h
      have := congrArg (fun l => l.tail.tail.head?) h
      simp at this
      exact hc this

theorem parseFree_guarded_of_braceFree {α : Type} {k : List Char → Option α}
    {pre : List Char} (hp : pre.head? = some '{') {l : List Char}
    (h : braceFree l = true) : parseFree (guarded pre k) l = true := by
  induction l with
  | nil => simp [parseFree, guarded_none_nil hp]
  | cons c rest ih =>
      simp only [braceFree, List.all_cons, Bool.and_eq_true, decide_eq_true_eq] at h
      simp [parseFree, guarded_none_head hp h.1, ih (by simpa [braceFree] using h.2)]

theorem parseInert_guarded_of_braceFree {α : Type} {k : List Char → Option α}
    {pre : List Char} (hp : pre.head? = some '{') (b : List Char) {a : List Char}
    (h : braceFree a = true) : parseInert (guarded pre k) b a = true := by
  induction a with
  | nil => rfl
  | cons c rest ih =>
      simp only [braceFree, List.all_cons, Bool.and_eq_true, decide_eq_true_eq] at h
      simp [parseInert, guarded_none_head hp h.1, ih (by simpa [braceFree] using h.2)]

theorem parseFree_guarded_append {α : Type} {k : List Char → Option α}
    {pre : List Char} (hp : pre.head? = some '{') {a b : List Char}
    (ha : braceFree a = true) (hb : parseFree (guarded pre k) b = true) :
    parseFree (guarded pre k) (a ++ b) = true := by
  induction a with
  | nil => simpa using hb
  | cons c rest ih =>
      simp only [braceFree, List.all_cons, Bool.and_eq_true, decide_eq_true_eq] at ha
      simp [parseFree, guarded_none_head hp ha.1, ih (by simpa [braceFree] using ha.2)]

/-!
### The generic lemmas specialised to the three passes
-/

theorem processIf_id (ctx : Ctx) {l : List Char} (h : parseFree scanIfP l = true)
    (fuel : Nat) : passAux (scanIfC ctx) fuel l = l :=
  pass_id h fuel

theorem processEach_id (ctx : Ctx) {l : List Char} (h : parseFree scanEachP l = true)
    (fuel : Nat) : passAux (scanEachC ctx) fuel l = l :=
  pass_id h fuel

theorem interpolate_id (ctx : Ctx) {l : List Char} (h : parseFree scanVarP l = true)
    (fuel : Nat) : passAux (scanVarC ctx) fuel l = l :=
  pass_id h fuel

theorem processIf_skip (ctx : Ctx) (a b : List Char) (h : parseInert scanIfP b a = true)
    (fuel : Nat) :
    passAux (scanIfC ctx) (a.length + fuel) (a ++ b) = a ++ passAux (scanIfC ctx) fuel b :=
  pass_skip h fuel

theorem processEach_skip (ctx : Ctx) (a b : List Char) (h : parseInert scanEachP b a = true)
    (fuel : Nat) :
    passAux (scanEachC ctx) (a.length + fuel) (a ++ b) = a ++ passAux (scanEachC ctx) fuel b :=
  pass_skip h fuel

theorem interpolate_skip (ctx : Ctx) (a b : List Char) (h : parseInert scanVarP b a = true)
    (fuel : Nat) :
    passAux (scanVarC ctx) (a.length + fuel) (a ++ b) = a ++ passAux (scanVarC ctx) fuel b :=
  pass_skip h fuel

/-!
### Brace-free strings and word-character keys
-/

theorem braceFree_append (a b : List Char) :
    braceFree (a ++ b) = (braceFree a && braceFree b) := List.all_append

theorem braceFree_flatten {L : List (List Char)} (h : ∀ x ∈ L, braceFree x = true) :
    braceFree L.flatten = true := by
  induction L with
  | nil => rfl
  | cons x L ih =>
      rw [List.flatten_cons, braceFree_append, h x (by simp),
        ih (fun y hy => h y (by simp [hy]))]
      rfl

theorem isWordChar_ne_brace {c : Char} (h : isWordChar c = true) : c ≠ '{' := by
  intro he
  subst he
  exact absurd h (by decide)

theorem isWordChar_ne_hash {c : Char} (h : isWordChar c = true) : c ≠ '#' := by
  intro he
  subst he
  exact absurd h (by decide)

theorem braceFree_of_word {l : List Char} (h : l.all isWordChar = true) :
    braceFree l = true := by
  induction l with
  | nil => rfl
  | cons c rest ih =>
      simp only [List.all_cons, Bool.and_eq_true] at h
      simp [braceFree, List.all_cons, isWordChar_ne_brace h.1]
      simpa [braceFree] using ih h.2

theorem takeWhile_word_append {key : List Char} (hk : key.all isWordChar = true)
    (rest : List Char) : (key ++ '}' :: rest).takeWhile isWordChar = key := by
  induction key with
  | nil => rw [List.nil_append, List.takeWhile_cons_of_neg (by decide)]
  | cons c key ih =>
      simp only [List.all_cons, Bool.and_eq_true] at hk
      rw [List.cons_append, List.takeWhile_cons_of_pos hk.1, ih hk.2]

theorem dropWhile_word_append {key : List Char} (hk : key.all isWordChar = true)
    (rest : List Char) : (key ++ '}' :: rest).dropWhile isWordChar = '}' :: rest := by
  induction key with
  | nil => rw [List.nil_append, List.dropWhile_cons_of_neg (by decide)]
  | cons c key ih =>
      simp only [List.all_cons, Bool.and_eq_true] at hk
      rw [List.cons_append, List.dropWhile_cons_of_pos hk.1, ih hk.2]

/-- The variable parser matches a well-formed `{{key}}` marker exactly,
returning the key and the text after the marker. -/
theorem scanVarP_marker {key : List Char} (hne : key ≠ []) (hk : key.all isWordChar = true)
    (post : List Char) :
    scanVarP ('{' :: '{' :: (key ++ '}' :: '}' :: post)) = some (key, post) := by
  have h1 : ('{' :: '{' :: (key ++ '}' :: '}' :: post)).take "\x7b\x7b".data.length = "\x7b\x7b".data := rfl
  have h2 : ('{' :: '{' :: (key ++ '}' :: '}' :: post)).drop "\x7b\x7b".data.length
      = key ++ '}' :: '}' :: post := rfl
  simp only [scanVarP, guarded, h1, h2, if_true, eq_self_iff_true,
    takeWhile_word_append hk, dropWhile_word_append hk]
  rw [if_neg hne]
  simp

/-- A `{{key}}` variable marker contains no match of a `guarded` block
parser whose literal starts with `{{#`: the key's first character is a word
character, not `#`. -/
theorem parseFree_guarded_marker {α : Type} {k : List Char → Option α} {pat : List Char}
    (hp3 : pat.take 3 = ['{', '{', '#']) {key : List Char} (hne : key ≠ [])
    (hk : key.all isWordChar = true) {post : List Char}
    (hpost : parseFree (guarded pat k) post = true) :
    parseFree (guarded pat k) ('{' :: '{' :: (key ++ '}' :: '}' :: post)) = true := by
  have hp1 : pat.head? = some '{' := by
    have := congrArg (fun l => l.head?) hp3
    simpa [List.head?_take] using this
  have hp2 : pat.take 2 = ['{', '{'] := by
    have := congrArg (fun l => l.take 2) hp3
    simpa [List.take_take] using this
  obtain ⟨c, key', rfl⟩ : ∃ c key', key = c :: key' := by
    cases key with
    | nil => exact absurd rfl hne
    | cons c key' => exact ⟨c, key', rfl⟩
  simp only [List.all_cons, Bool.and_eq_true] at hk
  have g1 : guarded pat k ('}' :: '}' :: post) = none :=
    guarded_none_head hp1 (by decide) ('}' :: post)
  have g2 : guarded pat k ('}' :: post) = none := by
    cases post with
    | nil => exact guarded_none_head hp1 (by decide) []
    | cons d rest => exact guarded_none_head hp1 (by decide) (d :: rest)
  have hrest : parseFree (guarded pat k) ('}' :: '}' :: post) = true := by
    simp [parseFree, g1, g2, hpost]
  simp only [parseFree, Bool.and_eq_true, Option.isNone_iff_eq_none, List.cons_append]
  exact ⟨guarded_none_third hp3 (isWordChar_ne_hash hk.1) _,
    guarded_none_second hp2 (isWordChar_ne_brace hk.1) _,
    guarded_none_head hp1 (isWordChar_ne_brace hk.1) _,
    parseFree_guarded_append hp1 (braceFree_of_word hk.2) hrest⟩

/-!
### Evaluation of the concrete templates used by the specification's laws
-/

/-- `Array.isArray(ctx[key])` of `processEach`. -/
def isArrayVal : Option JsVal → Bool
  | some (.vArr _) => true
  | _ => false

theorem eachExpand_not_array {body : List Char} {v : Option JsVal}
    (h : isArrayVal v = false) : eachExpand body v = [] := by
  match v with
  | none => rfl
  | some (.vStr s) => rfl
  | some (.vBool b) => rfl
  | some (.vNum n) => rfl
  | some .vNull => rfl
  | some (.vProto n) => rfl
  | some (.vArr l) => exact absurd h (by simp [isArrayVal])

/-- A dollar-free replacement string is inserted literally by
`getSubstitution`. -/
theorem getSubstitution_dollarFree {m b a : List Char} {l : List Char}
    (h : dollarFree l = true) : getSubstitution m b a l = l := by
  induction l with
  | nil => rfl
  | cons c rest ih =>
      cases rest with
      | nil => rfl
      | cons d rest2 =>
          simp only [dollarFree, List.all_cons, Bool.and_eq_true, decide_eq_true_eq] at h
          have ih' := ih (by
            simp only [dollarFree, List.all_cons, Bool.and_eq_true, decide_eq_true_eq]
            exact ⟨h.2.1, h.2.2⟩)
          simp only [getSubstitution, if_neg h.1, ih']

/-- `"({{item}})".replace(/\{\{item\}\}/g, s)` for a dollar-free `s` is the
parenthesised literal insertion. -/
theorem replaceParen_eval (s : List Char) (h : dollarFree s = true) :
    replaceItemAux s 10 [] "(\x7b\x7bitem\x7d\x7d)".data = '(' :: (s ++ [')']) := by
  have e : replaceItemAux s 10 [] "(\x7b\x7bitem\x7d\x7d)".data
      = '(' :: (getSubstitution "\x7b\x7bitem\x7d\x7d".data ['('] [')'] s ++ [')']) := rfl
  rw [e, getSubstitution_dollarFree h]

/-- The conditional-law template: for every context, the body is kept
exactly when the key is truthy. -/
theorem render_if_template (ctx : Ctx) :
    renderTemplate "A\x7b\x7b#if k\x7d\x7dB\x7b\x7b/if\x7d\x7dC" ctx
      = if truthy (lookupCtx ctx "k") then "ABC" else "AC" := by
  have step1 : passAux (scanIfC ctx) 18 "A\x7b\x7b#if k\x7d\x7dB\x7b\x7b/if\x7d\x7dC".data
      = 'A' :: passAux (scanIfC ctx) 17 "\x7b\x7b#if k\x7d\x7dB\x7b\x7b/if\x7d\x7dC".data :=
    processIf_skip ctx ['A'] "\x7b\x7b#if k\x7d\x7dB\x7b\x7b/if\x7d\x7dC".data
      (parseInert_guarded_of_braceFree (by decide) _ (by decide)) 17
  have step2 : passAux (scanIfC ctx) 17 "\x7b\x7b#if k\x7d\x7dB\x7b\x7b/if\x7d\x7dC".data
      = (if truthy (lookupCtx ctx "k") then "B".data else [])
          ++ passAux (scanIfC ctx) 16 "C".data :=
    passAux_match (rfl) 16
  have hlist : passAux (scanIfC ctx) 18 "A\x7b\x7b#if k\x7d\x7dB\x7b\x7b/if\x7d\x7dC".data
      = 'A' :: ((if truthy (lookupCtx ctx "k") then "B".data else []) ++ "C".data) := by
    rw [step1, step2, processIf_id ctx (l := "C".data) (by decide) 16]
  have h1 : processIf "A\x7b\x7b#if k\x7d\x7dB\x7b\x7b/if\x7d\x7dC" ctx
      = ⟨'A' :: ((if truthy (lookupCtx ctx "k") then "B".data else []) ++ "C".data)⟩ :=
    congrArg String.mk hlist
  show interpolate (processEach (processIf "A\x7b\x7b#if k\x7d\x7dB\x7b\x7b/if\x7d\x7dC" ctx) ctx) ctx = _
  rw [h1]
  cases truthy (lookupCtx ctx "k") <;> rfl

/-- The negation-law template: for every context, the body is kept exactly
when the key is falsy. -/
theorem render_ifNeg_template (ctx : Ctx) :
    renderTemplate "\x7b\x7b#if !k\x7d\x7dB\x7b\x7b/if\x7d\x7d" ctx
      = if truthy (lookupCtx ctx "k") then "" else "B" := by
  have hscan : scanIfC ctx "\x7b\x7b#if !k\x7d\x7dB\x7b\x7b/if\x7d\x7d".data
      = some ((if !truthy (lookupCtx ctx "k") then "B".data else []), []) := rfl
  have hlist : passAux (scanIfC ctx) 18 "\x7b\x7b#if !k\x7d\x7dB\x7b\x7b/if\x7d\x7d".data
      = (if !truthy (lookupCtx ctx "k") then "B".data else [])
          ++ passAux (scanIfC ctx) 17 [] := passAux_match hscan 17
  rw [passAux_nil rfl 17, List.append_nil] at hlist
  have h1 : processIf "\x7b\x7b#if !k\x7d\x7dB\x7b\x7b/if\x7d\x7d" ctx
      = ⟨if !truthy (lookupCtx ctx "k") then "B".data else []⟩ :=
    congrArg String.mk hlist
  show interpolate (processEach (processIf "\x7b\x7b#if !k\x7d\x7dB\x7b\x7b/if\x7d\x7d" ctx) ctx) ctx = _
  rw [h1]
  cases truthy (lookupCtx ctx "k") <;> rfl

/-- Iteration and interpolation passes on the iteration-law template, when
the context value is an array: one parenthesised copy per element. -/
theorem each_inner_eval (ctx : Ctx) (items : List JsScalar)
    (hxs : lookupCtx ctx "xs" = some (.vArr items))
    (hbf : ∀ it ∈ items, braceFree (scalarToString it).data = true)
    (hd : ∀ it ∈ items, dollarFree (scalarToString it).data = true) :
    interpolate (processEach "\x7b\x7b#each xs\x7d\x7d(\x7b\x7bitem\x7d\x7d)\x7b\x7b/each\x7d\x7d" ctx) ctx
      = ⟨(items.map (fun it => '(' :: ((scalarToString it).data ++ [')']))).flatten⟩ := by
  have hscan : scanEachC ctx "\x7b\x7b#each xs\x7d\x7d(\x7b\x7bitem\x7d\x7d)\x7b\x7b/each\x7d\x7d".data
      = some (eachExpand "(\x7b\x7bitem\x7d\x7d)".data (lookupCtx ctx "xs"), []) := rfl
  rw [hxs] at hscan
  have hexp : eachExpand "(\x7b\x7bitem\x7d\x7d)".data (some (JsVal.vArr items))
      = (items.map (fun it => '(' :: ((scalarToString it).data ++ [')']))).flatten := by
    show (items.map (fun it =>
        replaceItemAux (scalarToString it).data 10 [] "(\x7b\x7bitem\x7d\x7d)".data)).flatten = _
    refine congrArg List.flatten (List.map_congr_left ?_)
    intro it hit
    exact replaceParen_eval _ (hd it hit)
  rw [hexp] at hscan
  have h2 : processEach "\x7b\x7b#each xs\x7d\x7d(\x7b\x7bitem\x7d\x7d)\x7b\x7b/each\x7d\x7d" ctx
      = ⟨(items.map (fun it => '(' :: ((scalarToString it).data ++ [')']))).flatten⟩ := by
    have hl : passAux (scanEachC ctx) 31 "\x7b\x7b#each xs\x7d\x7d(\x7b\x7bitem\x7d\x7d)\x7b\x7b/each\x7d\x7d".data
        = (items.map (fun it => '(' :: ((scalarToString it).data ++ [')']))).flatten
            ++ passAux (scanEachC ctx) 30 [] := passAux_match hscan 30
    rw [passAux_nil (by rfl) 30, List.append_nil] at hl
    exact congrArg String.mk hl
  have hbfF : braceFree
      (items.map (fun it => '(' :: ((scalarToString it).data ++ [')']))).flatten = true := by
    apply braceFree_flatten
    intro x hx
    simp only [List.mem_map] at hx
    obtain ⟨it, hit, rfl⟩ := hx
    have := hbf it hit
    simp [braceFree, List.all_append] at this ⊢
    exact this
  rw [h2]
  exact congrArg String.mk
    (interpolate_id ctx (parseFree_guarded_of_braceFree (by decide) hbfF) _)

/-- The iteration-law template evaluated end-to-end on an array value. -/
theorem render_each_template (ctx : Ctx) (items : List JsScalar)
    (hxs : lookupCtx ctx "xs" = some (.vArr items))
    (hbf : ∀ it ∈ items, braceFree (scalarToString it).data = true)
    (hd : ∀ it ∈ items, dollarFree (scalarToString it).data = true) :
    renderTemplate "\x7b\x7b#each xs\x7d\x7d(\x7b\x7bitem\x7d\x7d)\x7b\x7b/each\x7d\x7d" ctx
      = ⟨(items.map (fun it => '(' :: ((scalarToString it).data ++ [')']))).flatten⟩ := by
  have h1 : processIf "\x7b\x7b#each xs\x7d\x7d(\x7b\x7bitem\x7d\x7d)\x7b\x7b/each\x7d\x7d" ctx
      = "\x7b\x7b#each xs\x7d\x7d(\x7b\x7bitem\x7d\x7d)\x7b\x7b/each\x7d\x7d" :=
    congrArg String.mk (processIf_id ctx (by decide) _)
  show interpolate (processEach (processIf "\x7b\x7b#each xs\x7d\x7d(\x7b\x7bitem\x7d\x7d)\x7b\x7b/each\x7d\x7d" ctx) ctx) ctx = _
  rw [h1]
  exact each_inner_eval ctx items hxs hbf hd

/-- The iteration-law template evaluated on any non-array value: the whole
block is replaced by the empty string. -/
theorem render_each_template_not_array (ctx : Ctx)
    (h : isArrayVal (lookupCtx ctx "xs") = false) :
    renderTemplate "\x7b\x7b#each xs\x7d\x7d(\x7b\x7bitem\x7d\x7d)\x7b\x7b/each\x7d\x7d" ctx = "" := by
  have h1 : processIf "\x7b\x7b#each xs\x7d\x7d(\x7b\x7bitem\x7d\x7d)\x7b\x7b/each\x7d\x7d" ctx
      = "\x7b\x7b#each xs\x7d\x7d(\x7b\x7bitem\x7d\x7d)\x7b\x7b/each\x7d\x7d" :=
    congrArg String.mk (processIf_id ctx (by decide) _)
  have hscan : scanEachC ctx "\x7b\x7b#each xs\x7d\x7d(\x7b\x7bitem\x7d\x7d)\x7b\x7b/each\x7d\x7d".data
      = some (eachExpand "(\x7b\x7bitem\x7d\x7d)".data (lookupCtx ctx "xs"), []) := rfl
  rw [eachExpand_not_array h] at hscan
  have hl : passAux (scanEachC ctx) 31 "\x7b\x7b#each xs\x7d\x7d(\x7b\x7bitem\x7d\x7d)\x7b\x7b/each\x7d\x7d".data
      = [] ++ passAux (scanEachC ctx) 30 [] := passAux_match hscan 30
  rw [passAux_nil (by rfl) 30] at hl
  have h2 : processEach "\x7b\x7b#each xs\x7d\x7d(\x7b\x7bitem\x7d\x7d)\x7b\x7b/each\x7d\x7d" ctx = "" := congrArg String.mk hl
  show interpolate (processEach (processIf "\x7b\x7b#each xs\x7d\x7d(\x7b\x7bitem\x7d\x7d)\x7b\x7b/each\x7d\x7d" ctx) ctx) ctx = _
  rw [h1, h2]
  rfl

/-!
## Generator (`src/lib/generator.js`)
-/

/-- The configuration object produced by the wizard and consumed by
`generateProject`/`buildContext`.  Fields the code tests for absence are
`Option`s: `config.features || []`, `config.enablePreview !== false`, and
the spread `...config` which simply copies `description` whether or not it
is present. -/
structure Config where
  projectName : String
  packageName : String
  description : Option String
  buildTool : String
  javaVersion : String
  bootVersion : String
  database : String
  features : Option (List String)
  enablePreview : Option JsVal
  deriving DecidableEq, Repr

/-- `toPascalCase` of `generator.js`:
`str.replace(/(^|[-_])([a-z])/g, (_, __, c) => c.toUpperCase())`.
The scan after position 0: a hyphen or underscore followed by a lowercase
letter is replaced by the uppercased letter (dropping the separator);
everything else is copied. -/
def pascalAux : List Char → List Char
  | [] => []
  | [c] => [c]
  | c :: d :: rest =>
      if (c = '-' ∨ c = '_') ∧ d.isLower then d.toUpper :: pascalAux rest
      else c :: pascalAux (d :: rest)

/-- `toPascalCase`: the `^` alternative fires only at position 0 (the regex
has no multiline flag), uppercasing a leading lowercase letter. -/
def toPascalCase (s : String) : String :=
  match s.data with
  | [] => ""
  | c :: rest => if c.isLower then ⟨c.toUpper :: pascalAux rest⟩ else ⟨pascalAux (c :: rest)⟩

/-- The Gradle database-dependency lookup table of `buildContext`. -/
def dbDependencyTable : List (String × String) :=
  [("postgresql", "runtimeOnly(\"org.postgresql:postgresql\")"),
   ("mysql", "runtimeOnly(\"com.mysql:mysql-connector-j\")"),
   ("mongodb", "implementation(\"org.springframework.boot:spring-boot-starter-data-mongodb\")"),
   ("h2", "runtimeOnly(\"com.h2database:h2\")"),
   ("none", "")]

/-- The Maven database-dependency lookup table of `buildContext`. -/
def dbMavenDepTable : List (String × String) :=
  [("postgresql", "<groupId>org.postgresql</groupId><artifactId>postgresql</artifactId><scope>runtime</scope>"),
   ("mysql", "<groupId>com.mysql</groupId><artifactId>mysql-connector-j</artifactId><scope>runtime</scope>"),
   ("mongodb", "<groupId>org.springframework.boot</groupId><artifactId>spring-boot-starter-data-mongodb</artifactId>"),
   ("h2", "<groupId>com.h2database</groupId><artifactId>h2</artifactId><scope>runtime</scope>"),
   ("none", "")]

/-- Bracket access on an object literal whose own values are strings: own
keys first, then the `Object.prototype` members, then `undefined`. -/
def jsObjGet (table : List (String × String)) (key : String) : Option JsVal :=
  match table.lookup key with
  | some v => some (.vStr v)
  | none => if protoKeys.contains key then some (.vProto key) else none

/-- `x || ''`: the left operand if truthy, else the empty string (this is
what `undefined`, `null` and the falsy `''` of the `none` row become). -/
def jsOrEmpty : Option JsVal → JsVal
  | none => .vStr ""
  | some v => if truthyVal v then v else .vStr ""

/-- `{...}[config.database] || ''` for the Gradle table.  The result is a
JS value: a string for the five own keys and for unknown tokens, but the
inherited (truthy) prototype member for tokens such as `toString`. -/
def dbDependency (database : String) : JsVal :=
  jsOrEmpty (jsObjGet dbDependencyTable database)

/-- `{...}[config.database] || ''` for the Maven table. -/
def dbMavenDep (database : String) : JsVal :=
  jsOrEmpty (jsObjGet dbMavenDepTable database)

/-- The immediately-invoked `modulithDataDep` closure of `buildContext`. -/
def modulithDataDep (features : List String) (database : String) : String :=
  if !(features.contains "modulith") then ""
  else if ["postgresql", "mysql", "h2"].contains database then
    "implementation(\"org.springframework.modulith:spring-modulith-starter-jpa\")"
  else if database = "mongodb" then
    "implementation(\"org.springframework.modulith:spring-modulith-starter-mongodb\")"
  else ""

/-- `config.enablePreview !== false`: only the JS boolean `false` fails the
strict inequality. -/
def notExplicitFalse : Option JsVal → Bool
  | some (.vBool false) => false
  | _ => true

/-- The context object returned by `buildContext`.  One field per key of
the object literal; `description` is an `Option` because the spread
`...config` leaves it `undefined` when the configuration omits it.
`year` (`new Date().getFullYear()`) is supplied by the `today` argument of
`buildContext` since it reads the real clock. -/
structure Context where
  projectName : String
  packageName : String
  description : Option String
  buildTool : String
  javaVersion : String
  bootVersion : String
  database : String
  appName : String
  packagePath : String
  features : List String
  dbDependency : JsVal
  dbMavenDep : JsVal
  hasJpa : Bool
  hasMongo : Bool
  hasActuator : Bool
  hasSecurity : Bool
  hasValidation : Bool
  hasModulith : Bool
  hasNative : Bool
  hasWebFlux : Bool
  hasDockerCompose : Bool
  enablePreview : Bool
  year : Nat
  modulithDataDep : String
  deriving DecidableEq, Repr

/-- `buildContext` of `generator.js`. -/
def buildContext (today : Nat) (config : Config) : Context :=
  let appName := toPascalCase config.projectName
  let packagePath := String.mk (config.packageName.data.map (fun c => if c = '.' then '/' else c))
  let features := config.features.getD []
  { projectName := config.projectName
    packageName := config.packageName
    description := config.description
    buildTool := config.buildTool
    javaVersion := config.javaVersion
    bootVersion := config.bootVersion
    database := config.database
    appName := appName
    packagePath := packagePath
    features := features
    dbDependency := dbDependency config.database
    dbMavenDep := dbMavenDep config.database
    hasJpa := ["postgresql", "mysql", "h2"].contains config.database
    hasMongo := config.database == "mongodb"
    hasActuator := features.contains "actuator"
    hasSecurity := features.contains "security"
    hasValidation := features.contains "validation"
    hasModulith := features.contains "modulith"
    hasNative := features.contains "native"
    hasWebFlux := features.contains "webflux"
    hasDockerCompose := features.contains "docker-compose"
    enablePreview := notExplicitFalse config.enablePreview && (config.javaVersion == "25")
    year := today
    modulithDataDep := modulithDataDep features config.database }

/-- The file name written by `generateApplicationClass`:
`` `${ctx.appName}Application.java` ``. -/
def applicationClassFileName (ctx : Context) : String :=
  ctx.appName ++ "Application.java"

/-- `config.enablePreview !== false` holds exactly when the field is not
the JS boolean `false`. -/
theorem notExplicitFalse_iff (v : Option JsVal) :
    notExplicitFalse v = true ↔ v ≠ some (JsVal.vBool false) := by
  match v with
  | none => simp [notExplicitFalse]
  | some (.vStr s) => simp [notExplicitFalse]
  | some (.vBool true) => simp [notExplicitFalse]
  | some (.vBool false) => simp [notExplicitFalse]
  | some (.vNum n) => simp [notExplicitFalse]
  | some .vNull => simp [notExplicitFalse]
  | some (.vArr l) => simp [notExplicitFalse]
  | some (.vProto n) => simp [notExplicitFalse]

/-!
## Claims
-/

/-- When the key `k` is truthy, the conditional pass replaces the whole
block of the pass-ordering template by its body, unresolved. -/
theorem processIf_strips_wrapper (ctx : Ctx) (ht : truthy (lookupCtx ctx "k") = true) :
    processIf "\x7b\x7b#if k\x7d\x7d\x7b\x7b#each xs\x7d\x7d(\x7b\x7bitem\x7d\x7d)\x7b\x7b/each\x7d\x7d\x7b\x7b/if\x7d\x7d" ctx
      = "\x7b\x7b#each xs\x7d\x7d(\x7b\x7bitem\x7d\x7d)\x7b\x7b/each\x7d\x7d" := by
  have hscan : scanIfC ctx "\x7b\x7b#if k\x7d\x7d\x7b\x7b#each xs\x7d\x7d(\x7b\x7bitem\x7d\x7d)\x7b\x7b/each\x7d\x7d\x7b\x7b/if\x7d\x7d".data
      = some ((if truthy (lookupCtx ctx "k")
          then "\x7b\x7b#each xs\x7d\x7d(\x7b\x7bitem\x7d\x7d)\x7b\x7b/each\x7d\x7d".data else []), []) := rfl
  rw [ht, if_pos rfl] at hscan
  have hl : passAux (scanIfC ctx) 47 "\x7b\x7b#if k\x7d\x7d\x7b\x7b#each xs\x7d\x7d(\x7b\x7bitem\x7d\x7d)\x7b\x7b/each\x7d\x7d\x7b\x7b/if\x7d\x7d".data
      = "\x7b\x7b#each xs\x7d\x7d(\x7b\x7bitem\x7d\x7d)\x7b\x7b/each\x7d\x7d".data ++ passAux (scanIfC ctx) 46 [] :=
    passAux_match hscan 46
  rw [passAux_nil rfl 46, List.append_nil] at hl
  exact congrArg String.mk hl

/-- C1: `renderTemplate` applies its three rewrite passes in the fixed
order conditional resolution, then iteration, then variable interpolation;
consequently, for every context in which the conditional's key `k` is
truthy, rendering the conditional block whose body is an iteration block
equals rendering that body directly (the body survives the conditional
pass unresolved and is processed by the later passes), and for array
values whose elements are brace- and dollar-free the iteration is the
parenthesised expansion; the predicate is evaluated from the raw context. -/
theorem C1_pass_ordering :
    (∀ (src : String) (ctx : Ctx),
        renderTemplate src ctx = interpolate (processEach (processIf src ctx) ctx) ctx)
    ∧ (∀ ctx : Ctx, truthy (lookupCtx ctx "k") = true →
        renderTemplate "\x7b\x7b#if k\x7d\x7d\x7b\x7b#each xs\x7d\x7d(\x7b\x7bitem\x7d\x7d)\x7b\x7b/each\x7d\x7d\x7b\x7b/if\x7d\x7d" ctx
          = renderTemplate "\x7b\x7b#each xs\x7d\x7d(\x7b\x7bitem\x7d\x7d)\x7b\x7b/each\x7d\x7d" ctx)
    ∧ (∀ (ctx : Ctx) (items : List JsScalar),
        truthy (lookupCtx ctx "k") = true →
        lookupCtx ctx "xs" = some (.vArr items) →
        (∀ it ∈ items, braceFree (scalarToString it).data = true) →
        (∀ it ∈ items, dollarFree (scalarToString it).data = true) →
        renderTemplate "\x7b\x7b#if k\x7d\x7d\x7b\x7b#each xs\x7d\x7d(\x7b\x7bitem\x7d\x7d)\x7b\x7b/each\x7d\x7d\x7b\x7b/if\x7d\x7d" ctx
          = ⟨(items.map (fun it => '(' :: ((scalarToString it).data ++ [')']))).flatten⟩) := by
  have hInner : ∀ ctx : Ctx,
      processIf "\x7b\x7b#each xs\x7d\x7d(\x7b\x7bitem\x7d\x7d)\x7b\x7b/each\x7d\x7d" ctx
        = "\x7b\x7b#each xs\x7d\x7d(\x7b\x7bitem\x7d\x7d)\x7b\x7b/each\x7d\x7d" :=
    fun ctx => congrArg String.mk (processIf_id ctx (by decide) _)
  refine ⟨fun src ctx => rfl, ?_, ?_⟩
  · intro ctx ht
    show interpolate (processEach
        (processIf "\x7b\x7b#if k\x7d\x7d\x7b\x7b#each xs\x7d\x7d(\x7b\x7bitem\x7d\x7d)\x7b\x7b/each\x7d\x7d\x7b\x7b/if\x7d\x7d" ctx) ctx) ctx
      = interpolate (processEach
        (processIf "\x7b\x7b#each xs\x7d\x7d(\x7b\x7bitem\x7d\x7d)\x7b\x7b/each\x7d\x7d" ctx) ctx) ctx
    rw [processIf_strips_wrapper ctx ht, hInner ctx]
  · intro ctx items ht hxs hbf hd
    show interpolate (processEach
        (processIf "\x7b\x7b#if k\x7d\x7d\x7b\x7b#each xs\x7d\x7d(\x7b\x7bitem\x7d\x7d)\x7b\x7b/each\x7d\x7d\x7b\x7b/if\x7d\x7d" ctx) ctx) ctx = _
    rw [processIf_strips_wrapper ctx ht]
    exact each_inner_eval ctx items hxs hbf hd

/-- Witness for C1 at a concrete truthy context: the conditional is kept,
rendering agrees with rendering the body directly, and the iteration
inside it expands. -/
theorem C1_pass_ordering_witness :
    renderTemplate "\x7b\x7b#if k\x7d\x7d\x7b\x7b#each xs\x7d\x7d(\x7b\x7bitem\x7d\x7d)\x7b\x7b/each\x7d\x7d\x7b\x7b/if\x7d\x7d"
        [("k", .vBool true), ("xs", .vArr [.sStr "a", .sStr "b"])]
      = renderTemplate "\x7b\x7b#each xs\x7d\x7d(\x7b\x7bitem\x7d\x7d)\x7b\x7b/each\x7d\x7d"
        [("k", .vBool true), ("xs", .vArr [.sStr "a", .sStr "b"])]
    ∧ renderTemplate "\x7b\x7b#if k\x7d\x7d\x7b\x7b#each xs\x7d\x7d(\x7b\x7bitem\x7d\x7d)\x7b\x7b/each\x7d\x7d\x7b\x7b/if\x7d\x7d"
        [("k", .vBool true), ("xs", .vArr [.sStr "a", .sStr "b"])] = "(a)(b)" :=
  ⟨C1_pass_ordering.2.1 [("k", .vBool true), ("xs", .vArr [.sStr "a", .sStr "b"])] (by decide),
    C1_pass_ordering.2.2 [("k", .vBool true), ("xs", .vArr [.sStr "a", .sStr "b"])]
      [.sStr "a", .sStr "b"] (by decide) (by decide) (by decide) (by decide)⟩

/-- C2: the conditional-inclusion and negation laws: the body of an
`if`-block is kept exactly when the (possibly negated) boolean coercion of
the named context value is true, and the spec's concrete cases. -/
theorem C2_conditional_inclusion :
    (∀ ctx : Ctx, renderTemplate "A\x7b\x7b#if k\x7d\x7dB\x7b\x7b/if\x7d\x7dC" ctx
        = if truthy (lookupCtx ctx "k") then "ABC" else "AC")
    ∧ (∀ ctx : Ctx, renderTemplate "\x7b\x7b#if !k\x7d\x7dB\x7b\x7b/if\x7d\x7d" ctx
        = if truthy (lookupCtx ctx "k") then "" else "B")
    ∧ renderTemplate "A\x7b\x7b#if k\x7d\x7dB\x7b\x7b/if\x7d\x7dC" [("k", .vBool true)] = "ABC"
    ∧ renderTemplate "A\x7b\x7b#if k\x7d\x7dB\x7b\x7b/if\x7d\x7dC" [("k", .vBool false)] = "AC"
    ∧ renderTemplate "A\x7b\x7b#if k\x7d\x7dB\x7b\x7b/if\x7d\x7dC" [] = "AC"
    ∧ renderTemplate "\x7b\x7b#if !k\x7d\x7dB\x7b\x7b/if\x7d\x7d" [("k", .vBool true)] = ""
    ∧ renderTemplate "\x7b\x7b#if !k\x7d\x7dB\x7b\x7b/if\x7d\x7d" [("k", .vBool false)] = "B" :=
  ⟨render_if_template, render_ifNeg_template, rfl, rfl, rfl, rfl, rfl⟩

/-- Counterexample to C3 as stated: the source replaces `{{item}}` using a
*string* replacement, in which JS interprets `$`-patterns, so the element
`"$$"` is inserted as `"$"`, not as its string representation `"$$"`, and
`"$&"` re-inserts the matched `{{item}}` (which the later interpolation
pass then erases). -/
theorem C3_dollar_counterexample :
    renderTemplate "\x7b\x7b#each xs\x7d\x7d(\x7b\x7bitem\x7d\x7d)\x7b\x7b/each\x7d\x7d" [("xs", .vArr [.sStr "$$"])]
        = "($)"
    ∧ renderTemplate "\x7b\x7b#each xs\x7d\x7d(\x7b\x7bitem\x7d\x7d)\x7b\x7b/each\x7d\x7d" [("xs", .vArr [.sStr "$$"])]
        ≠ "($$)"
    ∧ renderTemplate "\x7b\x7b#each xs\x7d\x7d(\x7b\x7bitem\x7d\x7d)\x7b\x7b/each\x7d\x7d" [("xs", .vArr [.sStr "$&"])]
        = "()" :=
  ⟨rfl, by decide, rfl⟩

/-- C3 (amended): an array value expands to one copy of the body per
element in order with no separator, each occurrence of `{{item}}` replaced
through JS string-replacement substitution of the element's string
representation — literal insertion exactly when that representation
contains no `$`; an absent, null or non-array value makes the whole block
the empty string; and the spec's concrete cases. -/
theorem C3_iteration_law :
    (∀ (ctx : Ctx) (items : List JsScalar),
        lookupCtx ctx "xs" = some (.vArr items) →
        (∀ it ∈ items, braceFree (scalarToString it).data = true) →
        (∀ it ∈ items, dollarFree (scalarToString it).data = true) →
        renderTemplate "\x7b\x7b#each xs\x7d\x7d(\x7b\x7bitem\x7d\x7d)\x7b\x7b/each\x7d\x7d" ctx
          = ⟨(items.map (fun it => '(' :: ((scalarToString it).data ++ [')']))).flatten⟩)
    ∧ (∀ ctx : Ctx, isArrayVal (lookupCtx ctx "xs") = false →
        renderTemplate "\x7b\x7b#each xs\x7d\x7d(\x7b\x7bitem\x7d\x7d)\x7b\x7b/each\x7d\x7d" ctx = "")
    ∧ renderTemplate "\x7b\x7b#each xs\x7d\x7d(\x7b\x7bitem\x7d\x7d)\x7b\x7b/each\x7d\x7d" [("xs", .vArr [.sStr "a", .sStr "b"])]
        = "(a)(b)"
    ∧ renderTemplate "\x7b\x7b#each xs\x7d\x7d(\x7b\x7bitem\x7d\x7d)\x7b\x7b/each\x7d\x7d" [("xs", .vArr [])] = ""
    ∧ renderTemplate "\x7b\x7b#each xs\x7d\x7d(\x7b\x7bitem\x7d\x7d)\x7b\x7b/each\x7d\x7d" [("xs", .vNull)] = ""
    ∧ renderTemplate "\x7b\x7b#each xs\x7d\x7d(\x7b\x7bitem\x7d\x7d)\x7b\x7b/each\x7d\x7d" [] = "" :=
  ⟨render_each_template, render_each_template_not_array, rfl, rfl, rfl, rfl⟩

/-- Witness for C3 at concrete contexts: an array of two strings expands,
and a string value (a non-array) yields the empty string. -/
theorem C3_iteration_law_witness :
    renderTemplate "\x7b\x7b#each xs\x7d\x7d(\x7b\x7bitem\x7d\x7d)\x7b\x7b/each\x7d\x7d" [("xs", .vArr [.sStr "a", .sStr "b"])]
        = "(a)(b)"
    ∧ renderTemplate "\x7b\x7b#each xs\x7d\x7d(\x7b\x7bitem\x7d\x7d)\x7b\x7b/each\x7d\x7d" [("xs", .vStr "zz")] = "" :=
  ⟨C3_iteration_law.1 [("xs", .vArr [.sStr "a", .sStr "b"])] [.sStr "a", .sStr "b"]
      (by decide) (by decide) (by decide),
    C3_iteration_law.2.1 [("xs", .vStr "zz")] (by decide)⟩

/-- A template of literal segments interleaved with variable markers: for
each pair `(s, k)` the literal text `s` followed by the marker `{{k}}`,
ending in a final literal segment. -/
def markerChain : List (String × String) → String → String
  | [], tail => tail
  | (s, k) :: rest, tail => s ++ "\x7b\x7b" ++ k ++ "\x7d\x7d" ++ markerChain rest tail

/-- The literal text of a `markerChain` with every marker removed. -/
def chainText : List (String × String) → String → String
  | [], tail => tail
  | (s, _) :: rest, tail => s ++ chainText rest tail

theorem markerChain_cons_data (s k : String) (rest : List (String × String)) (tail : String) :
    (markerChain ((s, k) :: rest) tail).data
      = s.data ++ ('{' :: '{' :: (k.data ++ '}' :: '}' :: (markerChain rest tail).data)) := by
  show (((s.data ++ "\x7b\x7b".data) ++ k.data) ++ "\x7d\x7d".data)
      ++ (markerChain rest tail).data = _
  simp [List.append_assoc]

/-- No block parser (literal starting `{{#`) matches anywhere in a marker
chain whose segments are brace-free and whose keys are word characters. -/
theorem parseFree_guarded_chain {α : Type} {k' : List Char → Option α} {pat : List Char}
    (hp3 : pat.take 3 = ['{', '{', '#']) :
    ∀ (ps : List (String × String)) (tail : String),
      (∀ p ∈ ps, braceFree p.1.data = true) →
      (∀ p ∈ ps, p.2.data ≠ [] ∧ p.2.data.all isWordChar = true) →
      braceFree tail.data = true →
      parseFree (guarded pat k') (markerChain ps tail).data = true := by
  have hp1 : pat.head? = some '{' := by
    have := congrArg (fun l => l.head?) hp3
    simpa [List.head?_take] using this
  intro ps
  induction ps with
  | nil =>
      intro tail _ _ htail
      exact parseFree_guarded_of_braceFree hp1 htail
  | cons p rest ih =>
      obtain ⟨s, k⟩ := p
      intro tail hbf hkeys htail
      rw [markerChain_cons_data]
      exact parseFree_guarded_append hp1 (hbf (s, k) (by simp))
        (parseFree_guarded_marker hp3 (hkeys (s, k) (by simp)).1 (hkeys (s, k) (by simp)).2
          (ih tail (fun q hq => hbf q (by simp [hq])) (fun q hq => hkeys q (by simp [hq]))
            htail))

/-- The interpolation pass over a marker chain whose keys all resolve to
`undefined` or `null` erases every marker and keeps the literal text. -/
theorem interpolate_chain (ctx : Ctx) :
    ∀ (ps : List (String × String)) (tail : String),
      (∀ p ∈ ps, braceFree p.1.data = true) →
      (∀ p ∈ ps, p.2.data ≠ [] ∧ p.2.data.all isWordChar = true) →
      (∀ p ∈ ps, lookupCtx ctx p.2 = none ∨ lookupCtx ctx p.2 = some .vNull) →
      braceFree tail.data = true →
      ∀ extra, passAux (scanVarC ctx) ((markerChain ps tail).data.length + extra)
          (markerChain ps tail).data
        = (chainText ps tail).data := by
  intro ps
  induction ps with
  | nil =>
      intro tail _ _ _ htail extra
      exact interpolate_id ctx (parseFree_guarded_of_braceFree (by decide) htail) _
  | cons p rest ih =>
      obtain ⟨s, k⟩ := p
      intro tail hbf hkeys hvals htail extra
      have hbs : braceFree s.data = true := hbf (s, k) (by simp)
      have hkne : k.data ≠ [] := (hkeys (s, k) (by simp)).1
      have hkw : k.data.all isWordChar = true := (hkeys (s, k) (by simp)).2
      have hv : lookupCtx ctx k = none ∨ lookupCtx ctx k = some .vNull :=
        hvals (s, k) (by simp)
      have hiv : interpVal (lookupCtx ctx ⟨k.data⟩) = [] := by
        rcases hv with h | h <;>
          rw [show lookupCtx ctx ⟨k.data⟩ = lookupCtx ctx k from rfl, h] <;> rfl
      have hscan : scanVarC ctx ('{' :: '{' :: (k.data ++ '}' :: '}' ::
          (markerChain rest tail).data))
          = some ([], (markerChain rest tail).data) := by
        show (scanVarP ('{' :: '{' :: (k.data ++ '}' :: '}' ::
          (markerChain rest tail).data))).map _ = _
        rw [scanVarP_marker hkne hkw]
        show some (interpVal (lookupCtx ctx ⟨k.data⟩), (markerChain rest tail).data) = _
        rw [hiv]
      rw [markerChain_cons_data,
        show (chainText ((s, k) :: rest) tail).data
          = s.data ++ (chainText rest tail).data from rfl,
        List.length_append, Nat.add_assoc,
        interpolate_skip ctx s.data
          ('{' :: '{' :: (k.data ++ '}' :: '}' :: (markerChain rest tail).data))
          (parseInert_guarded_of_braceFree (by decide) _ hbs) _]
      refine congrArg (s.data ++ ·) ?_
      have hlen : ('{' :: '{' :: (k.data ++ '}' :: '}' ::
          (markerChain rest tail).data)).length + extra
          = (k.data.length + ((markerChain rest tail).data.length + 3 + extra)) + 1 := by
        simp [List.length_cons, List.length_append]
        omega
      rw [hlen, passAux_match hscan _, List.nil_append,
        show k.data.length + ((markerChain rest tail).data.length + 3 + extra)
          = (markerChain rest tail).data.length + (k.data.length + 3 + extra) by omega]
      exact ih tail (fun q hq => hbf q (by simp [hq])) (fun q hq => hkeys q (by simp [hq]))
        (fun q hq => hvals q (by simp [hq])) htail _

/-- Counterexample to C4 as stated: the absent key `toString` is not an own
property of the empty context, but a JS bracket access finds the member
inherited from `Object.prototype`, which is neither `undefined` nor
`null`, so the marker renders the function's string form (Node/V8 text),
not the empty string. -/
theorem C4_proto_key_counterexample :
    renderTemplate "x\x7b\x7btoString\x7d\x7dy" []
        = "xfunction toString() \x7b [native code] \x7dy"
    ∧ renderTemplate "x\x7b\x7btoString\x7d\x7dy" [] ≠ "xy" :=
  ⟨rfl, by decide⟩

/-- C4 (amended): for every template made of brace-free literal segments
interleaved with variable markers, each marker whose key resolves to
nothing — absent from the context's own keys *and* not the name of an
`Object.prototype` member — or to JS `null` is replaced by the empty
string, so the rendering is exactly the literal text (the total Lean
rendering functions never fail by construction).  Keys colliding with
`Object.prototype` members instead render the inherited member's string
form, as the counterexample shows. -/
theorem C4_missing_key_safety :
    ∀ (ctx : Ctx) (ps : List (String × String)) (tail : String),
      (∀ p ∈ ps, braceFree p.1.data = true) →
      (∀ p ∈ ps, p.2.data ≠ [] ∧ p.2.data.all isWordChar = true) →
      (∀ p ∈ ps, lookupCtx ctx p.2 = none ∨ lookupCtx ctx p.2 = some .vNull) →
      braceFree tail.data = true →
      renderTemplate (markerChain ps tail) ctx = chainText ps tail := by
  intro ctx ps tail hbf hkeys hvals htail
  have h1 : processIf (markerChain ps tail) ctx = markerChain ps tail :=
    congrArg String.mk
      (processIf_id ctx (parseFree_guarded_chain (by decide) ps tail hbf hkeys htail) _)
  have h2 : processEach (markerChain ps tail) ctx = markerChain ps tail :=
    congrArg String.mk
      (processEach_id ctx (parseFree_guarded_chain (by decide) ps tail hbf hkeys htail) _)
  have h3 : interpolate (markerChain ps tail) ctx = chainText ps tail := by
    show String.mk (passAux (scanVarC ctx) (markerChain ps tail).data.length
        (markerChain ps tail).data) = _
    have e := interpolate_chain ctx ps tail hbf hkeys hvals htail 0
    rw [Nat.add_zero] at e
    rw [e]
  show interpolate (processEach (processIf (markerChain ps tail) ctx) ctx) ctx = _
  rw [h1, h2, h3]

/-- Witness for C4: a template with two markers — an unknown key (not a
prototype member) and a null-valued key — renders to its literal text. -/
theorem C4_missing_key_safety_witness :
    renderTemplate "x\x7b\x7bmissing\x7d\x7dmid\x7b\x7bk\x7d\x7dy" [("k", .vNull)] = "xmidy" :=
  C4_missing_key_safety [("k", .vNull)] [("x", "missing"), ("mid", "k")] "y"
    (by decide) (by decide) (by decide) (by decide)

/-- C9: rendering is the identity on marker-free input: if no suffix of the
template matches the conditional, iteration or variable regex, every pass
copies the text unchanged, for any context. -/
theorem C9_identity_marker_free :
    ∀ (ctx : Ctx) (s : String),
      parseFree scanIfP s.data = true → parseFree scanEachP s.data = true →
      parseFree scanVarP s.data = true →
      renderTemplate s ctx = s := by
  intro ctx s h1 h2 h3
  have e1 : processIf s ctx = s := congrArg String.mk (processIf_id ctx h1 _)
  have e2 : processEach s ctx = s := congrArg String.mk (processEach_id ctx h2 _)
  have e3 : interpolate s ctx = s := congrArg String.mk (interpolate_id ctx h3 _)
  show interpolate (processEach (processIf s ctx) ctx) ctx = s
  rw [e1, e2, e3]

/-- Witness for C9: a literal text with no markup renders to itself even
under a non-empty context. -/
theorem C9_identity_marker_free_witness :
    renderTemplate "Hello, plain world. \x7d \x7b \x7d\x7d end" [("k", .vBool true)]
      = "Hello, plain world. \x7d \x7b \x7d\x7d end" :=
  C9_identity_marker_free [("k", .vBool true)] "Hello, plain world. \x7d \x7b \x7d\x7d end"
    (by decide) (by decide) (by decide)

/-- Counterexample to C5 as stated: the database token `toString` is
outside the five known tokens, yet the object lookup finds the member
inherited from `Object.prototype`; that function is truthy, so `|| ''`
keeps it and the snippet is not the empty string. -/
theorem C5_proto_token_counterexample :
    dbDependency "toString" = JsVal.vProto "toString"
    ∧ dbDependency "toString" ≠ JsVal.vStr ""
    ∧ dbMavenDep "toString" ≠ JsVal.vStr "" :=
  ⟨rfl, by decide, by decide⟩

/-- C5 (amended): the database-dependency derivation is the object-literal
lookup `{...}[database] || ''`: each of the four known tokens maps to its
fixed snippet string, `none` maps to the empty string, and every token
outside these five *that does not name an `Object.prototype` member* maps
to the empty string in both dialects with no error raised; a token naming
a prototype member instead keeps the inherited truthy value, as the
counterexample shows.  `buildContext` wires the table in. -/
theorem C5_db_dependency_table :
    (dbDependency "postgresql" = .vStr "runtimeOnly(\"org.postgresql:postgresql\")"
      ∧ dbDependency "mysql" = .vStr "runtimeOnly(\"com.mysql:mysql-connector-j\")"
      ∧ dbDependency "mongodb"
          = .vStr "implementation(\"org.springframework.boot:spring-boot-starter-data-mongodb\")"
      ∧ dbDependency "h2" = .vStr "runtimeOnly(\"com.h2database:h2\")"
      ∧ dbDependency "none" = .vStr "")
    ∧ (dbMavenDep "postgresql"
          = .vStr "<groupId>org.postgresql</groupId><artifactId>postgresql</artifactId><scope>runtime</scope>"
      ∧ dbMavenDep "mysql"
          = .vStr "<groupId>com.mysql</groupId><artifactId>mysql-connector-j</artifactId><scope>runtime</scope>"
      ∧ dbMavenDep "mongodb"
          = .vStr "<groupId>org.springframework.boot</groupId><artifactId>spring-boot-starter-data-mongodb</artifactId>"
      ∧ dbMavenDep "h2"
          = .vStr "<groupId>com.h2database</groupId><artifactId>h2</artifactId><scope>runtime</scope>"
      ∧ dbMavenDep "none" = .vStr "")
    ∧ (∀ db : String, db ∉ ["postgresql", "mysql", "mongodb", "h2", "none"] →
        db ∉ protoKeys →
        dbDependency db = .vStr "" ∧ dbMavenDep db = .vStr "")
    ∧ (∀ (d : Nat) (cfg : Config),
        (buildContext d cfg).dbDependency = dbDependency cfg.database
          ∧ (buildContext d cfg).dbMavenDep = dbMavenDep cfg.database) := by
  refine ⟨⟨rfl, rfl, rfl, rfl, rfl⟩, ⟨rfl, rfl, rfl, rfl, rfl⟩, ?_, fun d cfg => ⟨rfl, rfl⟩⟩
  intro db h hp
  simp only [List.mem_cons, List.not_mem_nil, or_false, not_or] at h
  obtain ⟨h1, h2, h3, h4, h5⟩ := h
  have e1 : (db == ("postgresql" : String)) = false := beq_eq_false_iff_ne.mpr h1
  have e2 : (db == ("mysql" : String)) = false := beq_eq_false_iff_ne.mpr h2
  have e3 : (db == ("mongodb" : String)) = false := beq_eq_false_iff_ne.mpr h3
  have e4 : (db == ("h2" : String)) = false := beq_eq_false_iff_ne.mpr h4
  have e5 : (db == ("none" : String)) = false := beq_eq_false_iff_ne.mpr h5
  constructor <;>
    simp [dbDependency, dbMavenDep, jsObjGet, jsOrEmpty, dbDependencyTable, dbMavenDepTable,
      List.lookup, e1, e2, e3, e4, e5, hp]

/-- Witness for C5: an unknown token (`redis`, not a prototype member)
yields the empty snippet in both dialects. -/
theorem C5_db_dependency_table_witness :
    dbDependency "redis" = .vStr "" ∧ dbMavenDep "redis" = .vStr "" :=
  C5_db_dependency_table.2.2.1 "redis" (by decide) (by decide)

/-- C6: the module-data-dependency snippet is non-empty exactly when the
feature list contains `modulith` and the database is relational
(JPA snippet) or `mongodb` (MongoDB snippet); in every other combination it
is the empty string. -/
theorem C6_modulith_data_dep :
    ∀ (d : Nat) (cfg : Config),
      ((buildContext d cfg).modulithDataDep ≠ "" ↔
        ((cfg.features.getD []).contains "modulith" = true ∧
          (cfg.database ∈ ["postgresql", "mysql", "h2"] ∨ cfg.database = "mongodb")))
      ∧ ((cfg.features.getD []).contains "modulith" = true →
          cfg.database ∈ ["postgresql", "mysql", "h2"] →
          (buildContext d cfg).modulithDataDep
            = "implementation(\"org.springframework.modulith:spring-modulith-starter-jpa\")")
      ∧ ((cfg.features.getD []).contains "modulith" = true → cfg.database = "mongodb" →
          (buildContext d cfg).modulithDataDep
            = "implementation(\"org.springframework.modulith:spring-modulith-starter-mongodb\")")
      ∧ ((cfg.features.getD []).contains "modulith" = false →
          (buildContext d cfg).modulithDataDep = "") := by
  intro d cfg
  have hb : (buildContext d cfg).modulithDataDep
      = modulithDataDep (cfg.features.getD []) cfg.database := rfl
  have hcont : (["postgresql", "mysql", "h2"].contains cfg.database = true)
      ↔ cfg.database ∈ ["postgresql", "mysql", "h2"] := List.elem_iff
  rw [hb]
  unfold modulithDataDep
  cases hcm : (cfg.features.getD []).contains "modulith" with
  | false => simp
  | true =>
      simp only [Bool.not_true, Bool.false_eq_true, if_false]
      by_cases hr : cfg.database ∈ ["postgresql", "mysql", "h2"]
      · rw [if_pos (hcont.mpr hr)]
        refine ⟨?_, fun _ _ => rfl, fun _ hmg => ?_, fun hfalse => by simp at hfalse⟩
        · simp [hr]
        · exact absurd (hmg ▸ hr) (by decide)
      · rw [if_neg (fun hc => hr (hcont.mp hc))]
        by_cases hmg : cfg.database = "mongodb"
        · rw [if_pos hmg]
          refine ⟨?_, fun _ hr' => absurd hr' hr, fun _ _ => rfl,
            fun hfalse => by simp at hfalse⟩
          simp [hr, hmg]
        · rw [if_neg hmg]
          refine ⟨?_, fun _ hr' => absurd hr' hr, fun _ hmg' => absurd hmg' hmg,
            fun _ => rfl⟩
          simp [hr, hmg]

/-- Witness for C6: with the `modulith` feature, PostgreSQL yields the JPA
starter, MongoDB yields the MongoDB starter, and without the feature the
snippet is empty. -/
theorem C6_modulith_data_dep_witness :
    (buildContext 2026
        { projectName := "x", packageName := "c", description := none,
          buildTool := "gradle", javaVersion := "25", bootVersion := "4.0.3",
          database := "postgresql", features := some ["modulith"],
          enablePreview := none }).modulithDataDep
      = "implementation(\"org.springframework.modulith:spring-modulith-starter-jpa\")"
    ∧ (buildContext 2026
        { projectName := "x", packageName := "c", description := none,
          buildTool := "gradle", javaVersion := "25", bootVersion := "4.0.3",
          database := "mongodb", features := some ["modulith"],
          enablePreview := none }).modulithDataDep
      = "implementation(\"org.springframework.modulith:spring-modulith-starter-mongodb\")"
    ∧ (buildContext 2026
        { projectName := "x", packageName := "c", description := none,
          buildTool := "gradle", javaVersion := "25", bootVersion := "4.0.3",
          database := "postgresql", features := some [],
          enablePreview := none }).modulithDataDep = "" :=
  ⟨(C6_modulith_data_dep 2026 _).2.1 (by decide) (by decide),
    (C6_modulith_data_dep 2026 _).2.2.1 (by decide) (by decide),
    (C6_modulith_data_dep 2026 _).2.2.2 (by decide)⟩

/-- C7: `buildContext` does not define `description` when the configuration
omits it: the spread `...config` copies the field verbatim, so the context
of the repository's own unit-test input (`provides description default when
missing`) has no description, contrary to the context-shape contract and to
the test's expected default `"Spring Boot 4 microservice"`. -/
theorem C7_description_not_defaulted :
    (∀ (d : Nat) (cfg : Config), (buildContext d cfg).description = cfg.description)
    ∧ (buildContext 2026
        { projectName := "x", packageName := "c", description := none,
          buildTool := "gradle", javaVersion := "25", bootVersion := "4.0.3",
          database := "none", features := some [], enablePreview := none }).description
      = none :=
  ⟨fun _ _ => rfl, rfl⟩

/-- C8: the derived application name is the Pascal-casing of the project
identifier, and the generated main-class file is named from it followed by
`Application.java`; in particular `smoke-test-project` gives
`SmokeTestProject` and `SmokeTestProjectApplication.java`. -/
theorem C8_pascal_app_name :
    toPascalCase "smoke-test-project" = "SmokeTestProject"
    ∧ (∀ (d : Nat) (cfg : Config),
        (buildContext d cfg).appName = toPascalCase cfg.projectName
          ∧ applicationClassFileName (buildContext d cfg)
              = toPascalCase cfg.projectName ++ "Application.java")
    ∧ applicationClassFileName (buildContext 2026
        { projectName := "smoke-test-project", packageName := "com.example",
          description := none, buildTool := "gradle", javaVersion := "25",
          bootVersion := "4.0.3", database := "none", features := some [],
          enablePreview := none })
      = "SmokeTestProjectApplication.java" :=
  ⟨rfl, fun _ _ => ⟨rfl, rfl⟩, rfl⟩

/-- C10: the derived `enablePreview` flag is true exactly when the
configured Java version is the string `25` and the configuration's
`enablePreview` field is not explicitly `false`; for any other Java version
the flag is false regardless of the field. -/
theorem C10_enable_preview :
    ∀ (d : Nat) (cfg : Config),
      ((buildContext d cfg).enablePreview = true ↔
        (cfg.javaVersion = "25" ∧ cfg.enablePreview ≠ some (JsVal.vBool false)))
      ∧ (cfg.javaVersion ≠ "25" → (buildContext d cfg).enablePreview = false) := by
  intro d cfg
  have h : (buildContext d cfg).enablePreview
      = (notExplicitFalse cfg.enablePreview && (cfg.javaVersion == "25")) := rfl
  constructor
  · rw [h, Bool.and_eq_true, beq_iff_eq]
    exact ⟨fun ⟨a, b⟩ => ⟨b, (notExplicitFalse_iff _).mp a⟩,
      fun ⟨a, b⟩ => ⟨(notExplicitFalse_iff _).mpr b, a⟩⟩
  · intro hne
    rw [h, beq_eq_false_iff_ne.mpr hne, Bool.and_false]

/-- Witness for C10: Java 25 with the field absent enables preview; Java 21
with the field set to true does not. -/
theorem C10_enable_preview_witness :
    (buildContext 2026
        { projectName := "x", packageName := "c", description := none,
          buildTool := "gradle", javaVersion := "25", bootVersion := "4.0.3",
          database := "none", features := some [],
          enablePreview := none }).enablePreview = true
    ∧ (buildContext 2026
        { projectName := "x", packageName := "c", description := none,
          buildTool := "gradle", javaVersion := "21", bootVersion := "4.0.3",
          database := "none", features := some [],
          enablePreview := some (JsVal.vBool true) }).enablePreview = false :=
  ⟨((C10_enable_preview 2026 _).1).mpr ⟨rfl, by decide⟩,
    (C10_enable_preview 2026 _).2 (by decide)⟩

end SpringSkill
